import Mathlib

/-!
Verification of the garbo job-pipeline and API-route code.

This file gives a shallow embedding, in Lean 4, of the parts of the
repository that the verified properties talk about:

* `src/src/workers/guessWikidata.ts` — the Entity Resolver
  (`getWikidataSearchResults`), the candidate ranking (`orderedResults`),
  the Extraction Service message construction, and the `diffEqualities`
  worker that gates saves behind the Diff Engine;
* the company API router (unnamed source file `src/unnamed/part_001`) —
  the zod request schemas (`emissionsSchema`, `economySchema`,
  `postReportingPeriodsSchema`) and the POST handlers for goals,
  initiatives, equalities, reporting-periods, per-year emissions and
  per-year economy.

JavaScript strings are modelled as Lean `String`, with the JS string
operations (`trim`, `toUpperCase`, `toLowerCase`, `split(' ')`,
`split(/\s+/)`, `join`) re-implemented on the underlying character lists
so that everything evaluates inside the kernel.  JS `undefined` versus
`null` is modelled as `Option (Option α)`: `none` is `undefined` (field
absent), `some none` is an explicit `null`, `some (some a)` is a value.
JS numbers appearing in the relevant payloads are only carried around,
never computed with, and are modelled as `Int`.
-/

/-! ## JavaScript string primitives -/

/-- JS `String.prototype.toLowerCase`, on the character list. -/
def jsToLower (s : String) : String := String.mk (s.data.map Char.toLower)

/-- JS `String.prototype.toUpperCase`, on the character list. -/
def jsToUpper (s : String) : String := String.mk (s.data.map Char.toUpper)

/-- JS `String.prototype.trim`: drop leading and trailing whitespace. -/
def jsTrim (s : String) : String :=
  String.mk (((s.data.dropWhile Char.isWhitespace).reverse.dropWhile Char.isWhitespace).reverse)

/-- JS `Array.prototype.join(sep)`. -/
def joinSep (sep : String) : List String → String
  | [] => ""
  | [x] => x
  | x :: y :: xs => x ++ sep ++ joinSep sep (y :: xs)

/-- Splitting on every single occurrence of a separator character, as JS
`str.split(' ')` does: `"" ↦ [""]`, separators at the ends produce empty
pieces. -/
def splitCharsOn (sep : Char) : List Char → List (List Char)
  | [] => [[]]
  | c :: cs =>
    match splitCharsOn sep cs with
    | [] => [[]]
    | t :: ts => if c = sep then [] :: t :: ts else (c :: t) :: ts

/-- Splitting on maximal whitespace runs, as JS `str.split(/\s+/)` does:
a run of whitespace separates pieces; leading or trailing whitespace
yields a leading or trailing empty piece; `"" ↦ [""]`.  The flag records
whether we are currently consuming a whitespace run. -/
def splitWsAux (skipping : Bool) (cur : List Char) : List Char → List (List Char)
  | [] => [cur.reverse]
  | c :: cs =>
    if skipping then
      if c.isWhitespace then splitWsAux true [] cs
      else splitWsAux false [c] cs
    else
      if c.isWhitespace then cur.reverse :: splitWsAux true [] cs
      else splitWsAux false (c :: cur) cs

/-- JS `str.split(/\s+/)` as a list of strings. -/
def splitWs (s : String) : List String := (splitWsAux false [] s.data).map String.mk

/-- JS `str.split(' ')` as a list of strings. -/
def splitSpace (s : String) : List String := (splitCharsOn ' ' s.data).map String.mk

/-! ## Entity Resolver (`getWikidataSearchResults` in guessWikidata.ts) -/

/-- The fixed stop-word set `insignificantWords` of guessWikidata.ts. -/
def insignificantWords : List String := ["ab", "the", "and", "inc", "co", "publ"]

/-- The retry-0 name simplification:
`companyName.toLowerCase().split(/\s+/).filter(w => !insignificantWords.has(w)).join(' ')`. -/
def simplifyName (s : String) : String :=
  joinSep " " ((splitWs (jsToLower s)).filter (fun w => !(insignificantWords.contains w)))

/-- The suffix-trimming step of later retries:
`companyName.split(' ').slice(0, -1).join(' ')`. -/
def dropLastWord (s : String) : String :=
  joinSep " " (splitSpace s).dropLast

/-- One search-result record; only the candidate id matters to the loop, so
results are modelled as id strings. -/
abbrev SearchHit := String

/-- The recursive search loop of `getWikidataSearchResults`, parametrised by
the `searchCompany` collaborator.  The source guards the recursion with
`if (retry > 3) return []` and always calls itself with `retry + 1`; here
the same bound is realised structurally by a `fuel` argument equal to
`4 - retry`, which reaches `0` exactly when `retry > 3`.  The function
returns the final result list together with the trace of queries actually
searched (`searchCompany` is invoked once per attempt, before the
emptiness checks, exactly as in the source). -/
def searchLoopF (search : String → List SearchHit) :
    Nat → Nat → String → List SearchHit × List String
  | 0, _, _ => ([], [])
  | fuel + 1, retry, companyName =>
    let results := search companyName
    if results.isEmpty then
      if retry = 0 then
        let r := searchLoopF search fuel (retry + 1) (simplifyName companyName)
        (r.1, companyName :: r.2)
      else
        let name := dropLastWord companyName
        if name = "" then ([], [companyName])
        else
          let r := searchLoopF search fuel (retry + 1) name
          (r.1, companyName :: r.2)
    else (results, [companyName])

/-- `getWikidataSearchResults({ companyName })`: the loop entered at
`retry = 0`, i.e. with 4 attempts of budget. -/
def getWikidataSearchResults (search : String → List SearchHit) (companyName : String) :
    List SearchHit × List String :=
  searchLoopF search 4 0 companyName

/-- The ideal query chain from a given name by repeated suffix trimming. -/
def iterDrop (name : String) : Nat → List String
  | 0 => []
  | k + 1 => name :: iterDrop (dropLastWord name) k

/-! ## Candidate ranking (`orderedResults` in guessWikidata.ts) -/

/-- One fetched Wikidata entity record.  Besides the identifier and a stand-in
for the remaining descriptive fields, `claims` models the claims map as the
list of property keys present on the entity (in `Boolean(e?.claims?.P5991)`
a present key is truthy, since claim values are arrays); `none` models an
absent claims map. -/
structure Entity where
  id : String
  descr : String
  claims : Option (List String)
deriving DecidableEq, Repr

/-- The comparator key: `hasEmissions = (e) => Boolean(e?.claims?.P5991)`. -/
def hasEmissions (e : Entity) : Bool :=
  match e.claims with
  | some ks => ks.contains "P5991"
  | none => false

/-- The numeric sort key of the comparator
`(hasEmissions(a) ? 0 : 1) - (hasEmissions(b) ? 0 : 1)`. -/
def emissionsKey (e : Entity) : Nat := if hasEmissions e then 0 else 1

/-- Stable insertion with respect to the comparator key: an element is placed
before the first element whose key is not smaller.  Folding this over the
list from the right is a stable sort, the behaviour guaranteed for JS
`Array.prototype.toSorted` with this comparator. -/
def insertByKey (x : Entity) : List Entity → List Entity
  | [] => [x]
  | y :: ys => if emissionsKey x ≤ emissionsKey y then x :: y :: ys else y :: insertByKey x ys

/-- `results.toSorted(comparator)`: a stable sort by `emissionsKey`. -/
def sortByEmissions (l : List Entity) : List Entity :=
  l.foldr insertByKey []

/-- The `.map((e) => ({ ...e, claims: undefined }))` step. -/
def stripClaims (e : Entity) : Entity := { e with claims := none }

/-- `orderedResults`: sort moving entities with a P5991 claim first, then
strip the claims from every candidate. -/
def orderedResults (results : List Entity) : List Entity :=
  (sortByEmissions results).map stripClaims

/-! ## Extraction Service message construction (guessWikidata.ts) -/

/-- Chat roles used in the `ask` call. -/
inductive Role where
  | system : Role
  | user : Role
  | assistant : Role
deriving DecidableEq, Repr

/-- One role-tagged message of the request. -/
structure Message where
  role : Role
  content : String
deriving DecidableEq, Repr

/-- The message array passed to `ask`, including the final
`.filter((m) => m && m.content?.length > 0)`.  `promptContent` stands for
`wikidata.prompt` and `resultsJson` for `JSON.stringify(orderedResults)`,
both opaque strings here; `stacktraceArr` is `some msgs` when
`Array.isArray(job.stacktrace)` holds and `none` otherwise. -/
def buildMessages (companyName promptContent resultsJson : String)
    (stacktraceArr : Option (List String)) : List Message :=
  ([ some { role := Role.system, content := "I have a company named " ++ companyName ++ " and I am looking for the wikidata entry related to this company. Be helpful and try to be accurate." },
     some { role := Role.user, content := promptContent },
     some { role := Role.assistant, content := "OK. Just send me the wikidata search results?" },
     some { role := Role.user, content := resultsJson },
     stacktraceArr.map (fun st => { role := Role.user, content := joinSep "\n" st }) ] :
    List (Option Message)).filterMap
    (fun m? =>
      match m? with
      | some m => if m.content = "" then none else some m
      | none => none)

/-! ## The diffEqualities worker (guessWikidata.ts, second document) -/

/-- A domain fragment (the proposed or stored `equalities` / `goals` data).
Its internal structure is irrelevant to the worker, which only hands it to
the Diff Engine and serialises it; entries are modelled as strings. -/
abbrev Frag := List String

/-- The slice of the stored company record the worker reads. -/
structure CompanyRec where
  goals : Option Frag
  equalities : Option Frag
deriving DecidableEq, Repr

/-- The attribution metadata envelope (spec section 3). -/
structure Metadata where
  source : String
  url : String
  verified : Bool
deriving DecidableEq, Repr

/-- Modelled from the spec: `defaultMetadata` lives in `src/lib/saveUtils`,
which is not among the sampled sources.  Spec section 3 describes the
metadata as an attribution envelope with a source, the originating report
URL and a verification flag, created once per submission; timestamps are
outside this timeless model. -/
def defaultMetadata (url : String) : Metadata :=
  { source := "garbo", url := url, verified := false }

/-- Modelled from the spec: `diffChanges` lives in `src/lib/saveUtils`,
which is not among the sampled sources.  Spec section 4.3: the Diff Engine
compares an existing stored fragment (possibly absent) with the proposed
fragment; the diff is empty and `requiresApproval` is false exactly when
the two are equivalent, and a non-empty structured description with
`requiresApproval = true` is produced otherwise (an absent stored fragment
counts as having no fields).  Equivalence of the opaque fragments is
modelled as equality. -/
def diffChanges (before : Option Frag) (after : Frag) : String × Bool :=
  if before.getD [] = after then ("", false) else ("~ changed", true)

/-- The payload of a `diffEqualities` job (`job.data`). -/
structure DiffJobData where
  url : String
  companyName : String
  existingCompany : Option CompanyRec
  wikidataNode : String
  equalities : Frag
deriving DecidableEq, Repr

/-- The `body` object assembled by the worker: the proposed fragment plus
the fresh metadata envelope. -/
structure SaveBody where
  equalities : Frag
  metadata : Metadata
deriving DecidableEq, Repr

/-- The payload of the follow-on `saveToAPI` job:
`{ ...job.data, body, diff, requiresApproval, apiSubEndpoint: 'equalities', equalities: undefined }`. -/
structure SaveJobPayload where
  url : String
  companyName : String
  existingCompany : Option CompanyRec
  wikidataNode : String
  equalities : Option Frag
  body : SaveBody
  diff : String
  requiresApproval : Bool
  apiSubEndpoint : String
deriving DecidableEq, Repr

/-- The record of one run of the worker: the arguments of its single
`diffChanges` call, the optional enqueued save job (the worker performs at
most one `saveToAPI.queue.add`), and its return value. -/
structure DiffRun where
  diffBefore : Option Frag
  diffAfter : Frag
  enqueued : Option SaveJobPayload
  retBody : SaveBody
  retDiff : String
  retRequiresApproval : Bool
deriving DecidableEq, Repr

/-- The `diffEqualities` worker handler.  Note that the source passes
`before: existingCompany?.goals` — the stored goals fragment — to
`diffChanges`, and enqueues a save job exactly when the returned `diff`
is truthy (a non-empty string). -/
def diffEqualitiesWorker (d : DiffJobData) : DiffRun :=
  let metadata := defaultMetadata d.url
  let body : SaveBody := { equalities := d.equalities, metadata := metadata }
  let before := d.existingCompany.bind (fun c => c.goals)
  let r := diffChanges before d.equalities
  let enqueued : Option SaveJobPayload :=
    if r.1 = "" then none
    else some
      { url := d.url
        companyName := d.companyName
        existingCompany := d.existingCompany
        wikidataNode := d.wikidataNode
        equalities := none
        body := body
        diff := r.1
        requiresApproval := r.2
        apiSubEndpoint := "equalities" }
  { diffBefore := before
    diffAfter := d.equalities
    enqueued := enqueued
    retBody := body
    retDiff := r.1
    retRequiresApproval := r.2 }

/-! ## JSON values and the zod combinators used by the company router -/

/-- A JSON value as received by the router (after `express.json()`).
Dates are modelled post-coercion: `z.coerce.date()` is represented by the
epoch-milliseconds integer it yields, so a date position holds a `numV`;
string-to-date parsing is outside the model. -/
inductive J where
  | nullV : J
  | boolV : Bool → J
  | numV : Int → J
  | strV : String → J
  | arrV : List J → J
  | objV : List (String × J) → J
deriving Repr

/-- Property access on a JSON object (first binding wins, as JS object keys
are unique). -/
def jLookup (fields : List (String × J)) (k : String) : Option J :=
  (fields.find? (fun f => f.1 = k)).map (fun f => f.2)

/-- The parser of a zod object shell. -/
def asObj : J → Except String (List (String × J))
  | J.objV fs => Except.ok fs
  | _ => Except.error "expected object"

/-- `z.number()` (numbers in the modelled payloads are integers). -/
def parseNum : J → Except String Int
  | J.numV n => Except.ok n
  | _ => Except.error "expected number"

/-- `z.string()`. -/
def parseStr : J → Except String String
  | J.strV s => Except.ok s
  | _ => Except.error "expected string"

/-- A required object property: absent means failure. -/
def reqField (fs : List (String × J)) (k : String) (p : J → Except String α) :
    Except String α :=
  match jLookup fs k with
  | none => Except.error ("missing " ++ k)
  | some v => p v

/-- `.optional()`: an absent property parses to `none`. -/
def parseOpt (p : J → Except String α) : Option J → Except String (Option α)
  | none => Except.ok none
  | some v => (p v).map some

/-- `.nullable()` on a required property: `null` parses to `none`. -/
def parseNullable (p : J → Except String α) : J → Except String (Option α)
  | J.nullV => Except.ok none
  | v => (p v).map some

/-- `.optional().nullable()`: absent parses to `none` (undefined), an
explicit `null` to `some none`, a value to `some (some a)`. -/
def parseOptNullable (p : J → Except String α) : Option J → Except String (Option (Option α))
  | none => Except.ok none
  | some J.nullV => Except.ok (some none)
  | some v => (p v).map (fun a => some (some a))

/-- `z.array(p)` element-wise parsing; fails iff some element fails. -/
def parseListJ (p : J → Except String α) : List J → Except String (List α)
  | [] => Except.ok []
  | x :: xs => do
    let a ← p x
    let as ← parseListJ p xs
    pure (a :: as)

/-! ## The emissions and economy schemas (part_001, lines 406-496) -/

/-- A `{ total: number }` object (scope1, biogenic, statedTotalEmissions,
scope1And2 all share this shape). -/
structure TotalObj where
  total : Int
deriving DecidableEq, Repr

/-- The parsed scope2 object: `mb`, `lb`, `unknown`, each
`z.number().optional().nullable()`. -/
structure Scope2Val where
  mb : Option (Option Int)
  lb : Option (Option Int)
  unknown : Option (Option Int)
deriving DecidableEq, Repr

/-- One scope 3 category entry: `category` an integer in `1..16`, `total` a
required nullable number. -/
structure CategoryVal where
  category : Int
  total : Option Int
deriving DecidableEq, Repr

/-- The parsed scope3 object: an optional category array plus a nullable
optional stated total. -/
structure Scope3Val where
  categories : Option (List CategoryVal)
  statedTotalEmissions : Option (Option TotalObj)
deriving DecidableEq, Repr

/-- The parsed `emissionsSchema` object.  Each of scope1, scope2, biogenic,
statedTotalEmissions and scope1And2 is `.optional().nullable()`; scope3 is
only `.optional()`. -/
structure EmissionsVal where
  scope1 : Option (Option TotalObj)
  scope2 : Option (Option Scope2Val)
  scope3 : Option Scope3Val
  biogenic : Option (Option TotalObj)
  statedTotalEmissions : Option (Option TotalObj)
  scope1And2 : Option (Option TotalObj)
deriving DecidableEq, Repr

/-- The parsed turnover object: `value` and `currency` both optional. -/
structure TurnoverVal where
  value : Option Int
  currency : Option String
deriving DecidableEq, Repr

/-- The parsed employees object: `value` and `unit` both optional. -/
structure EmployeesVal where
  value : Option Int
  unitName : Option String
deriving DecidableEq, Repr

/-- The parsed `economySchema` object: turnover and employees are both
`.optional().nullable()`. -/
structure EconomyVal where
  turnover : Option (Option TurnoverVal)
  employees : Option (Option EmployeesVal)
deriving DecidableEq, Repr

/-- The emissions object with every property undefined, produced by the
`emissions = {}` destructuring default. -/
def emptyEmissions : EmissionsVal :=
  { scope1 := none, scope2 := none, scope3 := none, biogenic := none
    statedTotalEmissions := none, scope1And2 := none }

/-- The economy object with every property undefined, produced by the
`economy = {}` destructuring default. -/
def emptyEconomy : EconomyVal := { turnover := none, employees := none }

/-- Parser of the `{ total: z.number() }` objects. -/
def parseTotalObj (j : J) : Except String TotalObj := do
  let fs ← asObj j
  let t ← reqField fs "total" parseNum
  pure { total := t }

/-- Parser of the scope2 object, including its `.refine` requiring at least
one of `mb`, `lb`, `unknown` to be defined. -/
def parseScope2 (j : J) : Except String Scope2Val := do
  let fs ← asObj j
  let mb ← parseOptNullable parseNum (jLookup fs "mb")
  let lb ← parseOptNullable parseNum (jLookup fs "lb")
  let unknown ← parseOptNullable parseNum (jLookup fs "unknown")
  if mb = none && lb = none && unknown = none then
    Except.error "At least one property of mb, lb and unknown must be defined if scope2 is provided"
  else
    pure { mb := mb, lb := lb, unknown := unknown }

/-- Parser of one scope 3 category entry. -/
def parseCategory (j : J) : Except String CategoryVal := do
  let fs ← asObj j
  let c ← reqField fs "category" parseNum
  if 1 ≤ c ∧ c ≤ 16 then do
    let t ← reqField fs "total" (parseNullable parseNum)
    pure { category := c, total := t }
  else Except.error "category out of range"

/-- Parser of the scope3 object. -/
def parseScope3 (j : J) : Except String Scope3Val := do
  let fs ← asObj j
  let cats ← parseOpt
    (fun v => match v with
      | J.arrV xs => parseListJ parseCategory xs
      | _ => Except.error "expected array") (jLookup fs "categories")
  let ste ← parseOptNullable parseTotalObj (jLookup fs "statedTotalEmissions")
  pure { categories := cats, statedTotalEmissions := ste }

/-- Parser of the `emissionsSchema` object body (without the outer
`.optional()`). -/
def parseEmissionsObj (j : J) : Except String EmissionsVal := do
  let fs ← asObj j
  let s1 ← parseOptNullable parseTotalObj (jLookup fs "scope1")
  let s2 ← parseOptNullable parseScope2 (jLookup fs "scope2")
  let s3 ← parseOpt parseScope3 (jLookup fs "scope3")
  let bio ← parseOptNullable parseTotalObj (jLookup fs "biogenic")
  let ste ← parseOptNullable parseTotalObj (jLookup fs "statedTotalEmissions")
  let s12 ← parseOptNullable parseTotalObj (jLookup fs "scope1And2")
  pure { scope1 := s1, scope2 := s2, scope3 := s3, biogenic := bio
         statedTotalEmissions := ste, scope1And2 := s12 }

/-- Parser of the turnover object. -/
def parseTurnover (j : J) : Except String TurnoverVal := do
  let fs ← asObj j
  let v ← parseOpt parseNum (jLookup fs "value")
  let c ← parseOpt parseStr (jLookup fs "currency")
  pure { value := v, currency := c }

/-- Parser of the employees object. -/
def parseEmployees (j : J) : Except String EmployeesVal := do
  let fs ← asObj j
  let v ← parseOpt parseNum (jLookup fs "value")
  let u ← parseOpt parseStr (jLookup fs "unit")
  pure { value := v, unitName := u }

/-- Parser of the `economySchema` object body (without the outer
`.optional()`). -/
def parseEconomyObj (j : J) : Except String EconomyVal := do
  let fs ← asObj j
  let t ← parseOptNullable parseTurnover (jLookup fs "turnover")
  let e ← parseOptNullable parseEmployees (jLookup fs "employees")
  pure { turnover := t, employees := e }

/-! ## The reporting-periods schema (part_001, lines 498-515) -/

/-- One parsed reporting period.  `startDate` and `endDate` are the
epoch-milliseconds integers produced by `z.coerce.date()`. -/
structure PeriodVal where
  startDate : Int
  endDate : Int
  reportURL : Option String
  emissions : Option EmissionsVal
  economy : Option EconomyVal
deriving DecidableEq, Repr

/-- Parser of one reporting period, including the
`.refine(({ startDate, endDate }) => startDate.getTime() < endDate.getTime())`
check, which zod runs after the field parses succeed. -/
def parsePeriod (j : J) : Except String PeriodVal := do
  let fs ← asObj j
  let s ← reqField fs "startDate" parseNum
  let e ← reqField fs "endDate" parseNum
  let u ← parseOpt parseStr (jLookup fs "reportURL")
  let em ← parseOpt parseEmissionsObj (jLookup fs "emissions")
  let ec ← parseOpt parseEconomyObj (jLookup fs "economy")
  if s < e then
    pure { startDate := s, endDate := e, reportURL := u, emissions := em, economy := ec }
  else Except.error "startDate must be earlier than endDate"

/-- Parser of the `postReportingPeriodsSchema` body
`{ reportingPeriods: z.array(...) }`. -/
def parsePostReportingPeriods (j : J) : Except String (List PeriodVal) := do
  let fs ← asObj j
  match jLookup fs "reportingPeriods" with
  | some (J.arrV ps) => parseListJ parsePeriod ps
  | some _ => Except.error "expected array"
  | none => Except.error "missing reportingPeriods"

/-! ## Date helpers for `endDate.getFullYear()` -/

/-- Days since the Unix epoch of an epoch-milliseconds timestamp (floor
division, as the JS Date getters work on the timeline). -/
def epochDayOfMs (ms : Int) : Int := Int.fdiv ms 86400000

/-- The proleptic-Gregorian year of an epoch day count (standard civil
calendar conversion via 400-year eras). -/
def civilYearOfDay (day : Int) : Int :=
  let z := day + 719468
  let era := Int.fdiv z 146097
  let doe := z - era * 146097
  let yoe := Int.fdiv (doe - Int.fdiv doe 1460 + Int.fdiv doe 36524 - Int.fdiv doe 146096) 4
  let y := yoe + era * 400
  let doy := doe - (365 * yoe + Int.fdiv yoe 4 - Int.fdiv yoe 100)
  let mp := Int.fdiv (5 * doy + 2) 153
  let m := mp + (if mp < 10 then 3 else -9)
  if m ≤ 2 then y + 1 else y

/-- `endDate.getFullYear().toString()` (UTC model of the getter). -/
def jsYearString (ms : Int) : String := toString (civilYearOfDay (epochDayOfMs ms))

/-! ## The reporting-periods, emissions and economy handlers -/

/-- One call to a field-group upsert of the Persistence Gateway, carrying
the JS value the handler passes (for the nullable groups, `none` is an
explicit `null` meaning delete). -/
inductive UpsertCall where
  | scope1Call : Option TotalObj → UpsertCall
  | scope2Call : Option Scope2Val → UpsertCall
  | scope3Call : Scope3Val → UpsertCall
  | statedTotalCall : Option TotalObj → UpsertCall
  | biogenicCall : Option TotalObj → UpsertCall
  | scope1And2Call : Option TotalObj → UpsertCall
  | turnoverCall : Option TurnoverVal → UpsertCall
  | employeesCall : Option EmployeesVal → UpsertCall
deriving DecidableEq, Repr

/-- The currency normalisation of the reporting-periods handler:
`if (turnover?.currency) { turnover.currency = turnover.currency.trim().toUpperCase() }`.
The guard is JS truthiness, so an absent turnover, a `null` turnover, an
absent currency and an empty-string currency all skip the assignment. -/
def normalizeTurnoverRP (t : Option (Option TurnoverVal)) : Option (Option TurnoverVal) :=
  match t with
  | some (some tv) =>
    match tv.currency with
    | some c =>
      if c = "" then some (some tv)
      else some (some { tv with currency := some (jsToUpper (jsTrim c)) })
    | none => some (some tv)
  | x => x

/-- The currency normalisation of the per-year economy handler:
`if (turnover) { turnover.currency = turnover?.currency?.trim()?.toUpperCase() }`.
The guard only checks the turnover object itself; an undefined currency is
reassigned `undefined`. -/
def normalizeTurnoverEcon (t : Option (Option TurnoverVal)) : Option (Option TurnoverVal) :=
  match t with
  | some (some tv) =>
    some (some { tv with currency := tv.currency.map (fun c => jsToUpper (jsTrim c)) })
  | x => x

/-- The eight-element array handed to `Promise.allSettled` by the
reporting-periods handler.  A slot is `none` when the `!== undefined`
guard (truthiness for scope3) fails, in which case the array holds the
value `false` and no upsert is invoked; otherwise it records the upsert
call started in that slot. -/
def periodSlots (em : EmissionsVal) (ec : EconomyVal) : List (Option UpsertCall) :=
  [ em.scope1.map UpsertCall.scope1Call,
    em.scope2.map UpsertCall.scope2Call,
    em.scope3.map UpsertCall.scope3Call,
    em.statedTotalEmissions.map UpsertCall.statedTotalCall,
    em.biogenic.map UpsertCall.biogenicCall,
    em.scope1And2.map UpsertCall.scope1And2Call,
    ec.turnover.map UpsertCall.turnoverCall,
    ec.employees.map UpsertCall.employeesCall ]

/-- The six-element array handed to `Promise.allSettled` by the per-year
emissions handler (part_001, lines 683-697; note its order: scope1,
scope2, scope3, scope1And2, statedTotalEmissions, biogenic). -/
def emissionsRouteSlots (em : EmissionsVal) : List (Option UpsertCall) :=
  [ em.scope1.map UpsertCall.scope1Call,
    em.scope2.map UpsertCall.scope2Call,
    em.scope3.map UpsertCall.scope3Call,
    em.scope1And2.map UpsertCall.scope1And2Call,
    em.statedTotalEmissions.map UpsertCall.statedTotalCall,
    em.biogenic.map UpsertCall.biogenicCall ]

/-- The two-element array handed to `Promise.allSettled` by the per-year
economy handler (part_001, lines 730-734), after its currency
normalisation. -/
def econRouteSlots (ec : EconomyVal) : List (Option UpsertCall) :=
  [ (normalizeTurnoverEcon ec.turnover).map UpsertCall.turnoverCall,
    ec.employees.map UpsertCall.employeesCall ]

/-- The settled outcome of one array slot: a skipped slot settles as
fulfilled `false`; an upsert settles fulfilled or rejected on its own. -/
inductive Settled where
  | skippedSlot : Settled
  | fulfilled : Settled
  | rejected : String → Settled
deriving DecidableEq, Repr

/-- How one slot settles, given the outcome `o` of each upsert call. -/
def settleSlot (o : UpsertCall → Except String Unit) : Option UpsertCall → Settled
  | none => Settled.skippedSlot
  | some c =>
    match o c with
    | Except.ok _ => Settled.fulfilled
    | Except.error e => Settled.rejected e

/-- `Promise.allSettled`: every slot contributes its own settled outcome;
nothing is short-circuited or rolled back. -/
def settleSlots (o : UpsertCall → Except String Unit) (slots : List (Option UpsertCall)) :
    List Settled :=
  slots.map (settleSlot o)

/-- The `upsertReportingPeriod` arguments derived from one period. -/
structure RPArgs where
  startDate : Int
  endDate : Int
  reportURL : Option String
  year : String
deriving DecidableEq, Repr

/-- The per-period effects of the reporting-periods handler: the
reporting-period upsert itself and the allSettled slot array (the id
plumbing of `upsertEmissions` / `upsertEconomy`, which threads
database-generated ids, is outside this functional model). -/
structure PeriodRun where
  rpCall : RPArgs
  slots : List (Option UpsertCall)
deriving DecidableEq, Repr

/-- Processing of one reporting period inside the handler: destructuring
defaults `emissions = {}` and `economy = {}`, the year derivation, the
currency normalisation, then the eight fan-out slots. -/
def processPeriod (p : PeriodVal) : PeriodRun :=
  let em := p.emissions.getD emptyEmissions
  let ec := p.economy.getD emptyEconomy
  let ecNorm : EconomyVal := { turnover := normalizeTurnoverRP ec.turnover, employees := ec.employees }
  { rpCall :=
      { startDate := p.startDate, endDate := p.endDate, reportURL := p.reportURL
        year := jsYearString p.endDate }
    slots := periodSlots em ecNorm }

/-- A router response, as far as the claims are concerned. -/
inductive ApiResponse where
  | okTrue : ApiResponse
  | badRequest : String → ApiResponse
deriving DecidableEq, Repr

/-- The POST `/:wikidataId/reporting-periods` route: the zod middleware
validates the body first and rejects the request before the handler — and
hence before any upsert — runs; on success every submitted period is
processed. -/
def postReportingPeriodsRoute (body : J) : ApiResponse × List PeriodRun :=
  match parsePostReportingPeriods body with
  | Except.error e => (ApiResponse.badRequest e, [])
  | Except.ok periods => (ApiResponse.okTrue, periods.map processPeriod)

/-! ## The goals, initiatives and equalities POST handlers (part_001) -/

/-- A parsed goal of `goalSchema`. -/
structure GoalVal where
  description : String
  year : Option String
  target : Option Int
  baseYear : Option String
deriving DecidableEq, Repr

/-- A parsed initiative of `initiativeSchema`. -/
structure InitiativeVal where
  title : String
  description : Option String
  year : Option String
  scope : Option String
deriving DecidableEq, Repr

/-- One entry of the `equalitySchema` sub-arrays. -/
structure EqualityEntry where
  description : String
  year : Option Int
  target : Option String
  baseYear : Option Int
deriving DecidableEq, Repr

/-- A parsed equality of `equalitySchema`. -/
structure EqualityVal where
  initiatives : Option (List EqualityEntry)
  goals : Option (List EqualityEntry)
deriving DecidableEq, Repr

/-- A call to one of the create operations of the persistence layer. -/
inductive CreateCall where
  | goalsCall : String → List GoalVal → Metadata → CreateCall
  | initiativesCall : String → List InitiativeVal → Metadata → CreateCall
  | equalitiesCall : String → List EqualityVal → Metadata → CreateCall
deriving DecidableEq, Repr

/-- The POST `/:wikidataId/goals` handler body: `createGoals` is called only
under the `if (goals?.length)` truthiness guard, and the response is
`{ ok: true }` either way. -/
def postGoalsHandler (wikidataId : String) (goals : List GoalVal) (md : Metadata) :
    List CreateCall × ApiResponse :=
  ((if goals.isEmpty then [] else [CreateCall.goalsCall wikidataId goals md]), ApiResponse.okTrue)

/-- The POST `/:wikidataId/initiatives` handler body, same shape. -/
def postInitiativesHandler (wikidataId : String) (initiatives : List InitiativeVal) (md : Metadata) :
    List CreateCall × ApiResponse :=
  ((if initiatives.isEmpty then [] else [CreateCall.initiativesCall wikidataId initiatives md]),
    ApiResponse.okTrue)

/-- The POST `/:wikidataId/equalities` handler body, same shape. -/
def postEqualitiesHandler (wikidataId : String) (equalities : List EqualityVal) (md : Metadata) :
    List CreateCall × ApiResponse :=
  ((if equalities.isEmpty then [] else [CreateCall.equalitiesCall wikidataId equalities md]),
    ApiResponse.okTrue)

/-! ## Concrete inputs used by the verification -/

/-- The job data exhibiting the diffEqualities before-fragment defect: the
stored goals and equalities fragments differ, and the proposed equalities
equal the stored equalities. -/
def c1Data : DiffJobData :=
  { url := "https://example.org/report.pdf"
    companyName := "Acme"
    existingCompany := some { goals := some ["goal entry"], equalities := some ["equality entry"] }
    wikidataNode := "Q1"
    equalities := ["equality entry"] }

/-- A diffEqualities job whose proposal differs from the diffed fragment. -/
def c2Data : DiffJobData :=
  { url := "https://example.org/r.pdf", companyName := "Acme", existingCompany := none
    wikidataNode := "Q1", equalities := ["x"] }

/-- A reporting period and an economy submission whose turnover carries the
currency string `" sek "`. -/
def c4Period : PeriodVal :=
  { startDate := 0, endDate := 86400000, reportURL := none, emissions := none
    economy := some { turnover := some (some { value := some 5, currency := some " sek " })
                      employees := none } }

/-- An emissions submission touching several field groups. -/
def c6Emissions : EmissionsVal :=
  { scope1 := some (some { total := 1 }), scope2 := some none, scope3 := none
    biogenic := some (some { total := 2 }), statedTotalEmissions := none
    scope1And2 := some none }

/-- An economy submission touching the turnover group. -/
def c6Economy : EconomyVal :=
  { turnover := some (some { value := some 5, currency := some "SEK" }), employees := none }

/-- An outcome assignment rejecting the scope1 upsert and fulfilling the
rest. -/
def c6Reject : UpsertCall → Except String Unit :=
  fun c =>
    if c = UpsertCall.scope1Call (some { total := 1 }) then Except.error "boom"
    else Except.ok ()

/-- The all-fulfilling outcome assignment. -/
def c6Accept : UpsertCall → Except String Unit := fun _ => Except.ok ()

/-- A reporting period with scope1 and turnover explicitly null and every
other field group omitted. -/
def c8Period : PeriodVal :=
  { startDate := 0, endDate := 86400000, reportURL := none
    emissions := some { scope1 := some none, scope2 := none, scope3 := none, biogenic := none
                        statedTotalEmissions := none, scope1And2 := none }
    economy := some { turnover := some none, employees := none } }

/-- A reporting-periods body whose single period has startDate after
endDate. -/
def c10Body : J :=
  J.objV [("reportingPeriods",
    J.arrV [J.objV [("startDate", J.numV 100), ("endDate", J.numV 50)]])]

/-! ## Theorems -/

/-- C1: the `before` argument the diffEqualities worker passes to the Diff
Engine is `existingCompany?.goals`, the stored goals fragment, not the
stored equalities fragment: at `c1Data` the proposed equalities are
identical to the stored equalities, yet the worker diffs against the goals
fragment and enqueues a save job. -/
theorem diffEqualities_before_is_stored_goals :
    (diffEqualitiesWorker c1Data).diffBefore = some ["goal entry"] ∧
    (diffEqualitiesWorker c1Data).diffBefore ≠ c1Data.existingCompany.bind (fun c => c.equalities) ∧
    (diffEqualitiesWorker c1Data).enqueued.isSome = true := by
  decide

/-- C2: the diffEqualities worker enqueues a save job iff the computed diff
is non-empty; a `requiresApproval = false` result never triggers a save;
and a non-empty diff enqueues exactly the payload carrying the diff, the
flag, the body with the fresh metadata envelope, the `equalities`
sub-endpoint name, and the original job data with its `equalities` field
removed. -/
theorem diffEqualities_enqueue_iff_diff (d : DiffJobData) :
    ((diffEqualitiesWorker d).enqueued.isSome = true ↔ (diffEqualitiesWorker d).retDiff ≠ "") ∧
    ((diffEqualitiesWorker d).retRequiresApproval = false →
      (diffEqualitiesWorker d).enqueued = none) ∧
    ((diffEqualitiesWorker d).retDiff ≠ "" →
      (diffEqualitiesWorker d).enqueued = some
        { url := d.url
          companyName := d.companyName
          existingCompany := d.existingCompany
          wikidataNode := d.wikidataNode
          equalities := none
          body := { equalities := d.equalities, metadata := defaultMetadata d.url }
          diff := (diffEqualitiesWorker d).retDiff
          requiresApproval := (diffEqualitiesWorker d).retRequiresApproval
          apiSubEndpoint := "equalities" }) := by
  unfold diffEqualitiesWorker diffChanges
  by_cases h : (d.existingCompany.bind (fun c => c.goals)).getD [] = d.equalities <;>
    simp [h]

/-- Witness for C2: at `c2Data` the diff is non-empty and the enqueued save
job is exactly the expected payload. -/
theorem diffEqualities_enqueue_iff_diff_witness :
    (diffEqualitiesWorker c2Data).enqueued = some
      { url := "https://example.org/r.pdf"
        companyName := "Acme"
        existingCompany := none
        wikidataNode := "Q1"
        equalities := none
        body := { equalities := ["x"], metadata := defaultMetadata "https://example.org/r.pdf" }
        diff := (diffEqualitiesWorker c2Data).retDiff
        requiresApproval := (diffEqualitiesWorker c2Data).retRequiresApproval
        apiSubEndpoint := "equalities" } :=
  (diffEqualities_enqueue_iff_diff c2Data).2.2 (by decide)

/-- C9: posting an empty goals, initiatives or equalities array makes no
create call to the persistence layer and still responds `{ ok: true }`. -/
theorem empty_array_posts_make_no_create_call (wikidataId : String) (md : Metadata) :
    postGoalsHandler wikidataId [] md = ([], ApiResponse.okTrue) ∧
    postInitiativesHandler wikidataId [] md = ([], ApiResponse.okTrue) ∧
    postEqualitiesHandler wikidataId [] md = ([], ApiResponse.okTrue) :=
  ⟨rfl, rfl, rfl⟩

/-- C4: in both the reporting-periods handler and the per-year economy
handler, whenever the submitted turnover carries a currency string, the
turnover value handed to the turnover upsert has that currency trimmed and
upper-cased. -/
theorem turnover_currency_trimmed_uppercased (p : PeriodVal) (ec : EconomyVal)
    (tv : TurnoverVal) (c : String) :
    (p.economy = some ec → ec.turnover = some (some tv) → tv.currency = some c →
      some (UpsertCall.turnoverCall
          (some { value := tv.value, currency := some (jsToUpper (jsTrim c)) }))
        ∈ (processPeriod p).slots) ∧
    (ec.turnover = some (some tv) → tv.currency = some c →
      some (UpsertCall.turnoverCall
          (some { value := tv.value, currency := some (jsToUpper (jsTrim c)) }))
        ∈ econRouteSlots ec) := by
  obtain ⟨tvv, tvc⟩ := tv
  constructor
  · intro hp ht hc
    cases hc
    by_cases hce : c = ""
    · subst hce
      have h0 : jsToUpper (jsTrim "") = "" := rfl
      simp [processPeriod, hp, periodSlots, normalizeTurnoverRP, ht, h0]
    · simp [processPeriod, hp, periodSlots, normalizeTurnoverRP, ht, hce]
  · intro ht hc
    cases hc
    simp [econRouteSlots, normalizeTurnoverEcon, ht]

/-- Witness for C4: a turnover submitted with currency `" sek "` is handed
to the turnover upsert with currency `"SEK"`, in both handlers. -/
theorem turnover_currency_trimmed_uppercased_witness :
    some (UpsertCall.turnoverCall (some { value := some 5, currency := some "SEK" }))
      ∈ (processPeriod c4Period).slots ∧
    some (UpsertCall.turnoverCall (some { value := some 5, currency := some "SEK" }))
      ∈ econRouteSlots { turnover := some (some { value := some 5, currency := some " sek " })
                         employees := none } := by
  have h := turnover_currency_trimmed_uppercased c4Period
    { turnover := some (some { value := some 5, currency := some " sek " }), employees := none }
    { value := some 5, currency := some " sek " } " sek "
  have e : jsToUpper (jsTrim " sek ") = "SEK" := rfl
  rw [e] at h
  exact ⟨h.1 rfl rfl rfl, h.2 rfl rfl⟩

/-- Counterexample for C7: the singleton stacktrace `[""]` is a non-empty
array, yet its newline-join is the empty string, so the
`m.content?.length > 0` filter drops the extra turn: the request equals
the request built with no stacktrace at all. -/
theorem stacktrace_singleton_empty_drops_turn :
    buildMessages "X" "p" "r" (some [""]) = buildMessages "X" "p" "r" none ∧
    ({ role := Role.user, content := joinSep "\n" [""] } : Message)
      ∉ buildMessages "X" "p" "r" (some [""]) ∧
    ([""] : List String) ≠ [] := by
  refine ⟨rfl, ?_, by simp⟩
  decide

/-- Splitting off the last element of the five-element message array. -/
theorem messageList_split (a b c d e : Option Message) :
    ([a, b, c, d, e] : List (Option Message)) = [a, b, c, d] ++ [e] := rfl

/-- C7 (amended): when the job's stacktrace is an array whose newline-join
is non-empty — in particular any non-empty array of non-empty failure
messages — the request is exactly the stacktrace-free request with one
additional user turn, whose content is the prior failure messages joined
by newlines, appended at the end; when the stacktrace is absent, or its
join is empty (the empty array, or the singleton empty string), no such
turn is included. -/
theorem stacktrace_turn_appended (cn pc rj : String) (st : List String) :
    (joinSep "\n" st ≠ "" →
      buildMessages cn pc rj (some st) =
        buildMessages cn pc rj none ++ [{ role := Role.user, content := joinSep "\n" st }]) ∧
    (joinSep "\n" st = "" → buildMessages cn pc rj (some st) = buildMessages cn pc rj none) := by
  constructor <;> intro h <;>
    · unfold buildMessages
      simp only [messageList_split, List.filterMap_append, Option.map_some', Option.map_none']
      simp [h]

/-- Witness for C7 (amended): two accumulated failure messages yield exactly
one extra user turn with both messages joined by a newline. -/
theorem stacktrace_turn_appended_witness :
    buildMessages "Acme" "p" "r" (some ["err one", "err two"]) =
      buildMessages "Acme" "p" "r" none ++ [{ role := Role.user, content := "err one\nerr two" }] := by
  have h := (stacktrace_turn_appended "Acme" "p" "r" ["err one", "err two"]).1 (by decide)
  have e : joinSep "\n" ["err one", "err two"] = "err one\nerr two" := rfl
  rw [e] at h
  exact h

/-- An element whose key is not larger than any key in the list is inserted
at the front. -/
theorem insertByKey_front (x : Entity) (ys : List Entity)
    (h : ∀ y ∈ ys, emissionsKey x ≤ emissionsKey y) :
    insertByKey x ys = x :: ys := by
  cases ys with
  | nil => rfl
  | cons y ys => simp [insertByKey, h y (List.mem_cons_self y ys)]

/-- Insertion passes over every element of strictly smaller key. -/
theorem insertByKey_passes (x : Entity) (xs ys : List Entity)
    (h : ∀ y ∈ xs, emissionsKey y < emissionsKey x) :
    insertByKey x (xs ++ ys) = xs ++ insertByKey x ys := by
  induction xs with
  | nil => rfl
  | cons a xs ih =>
    have ha : ¬ emissionsKey x ≤ emissionsKey a :=
      Nat.not_le.mpr (h a (List.mem_cons_self a xs))
    have ih2 := ih (fun y hy => h y (List.mem_cons_of_mem a hy))
    simp only [List.cons_append, insertByKey, if_neg ha, List.append_eq, ih2]

/-- The stable sort with the two-valued emissions key is the stable
partition: signalled entities first, then the rest, original order kept
inside each group. -/
theorem sortByEmissions_partition (l : List Entity) :
    sortByEmissions l =
      l.filter (fun e => hasEmissions e) ++ l.filter (fun e => !hasEmissions e) := by
  induction l with
  | nil => rfl
  | cons a l ih =>
    have hfold : sortByEmissions (a :: l) = insertByKey a (sortByEmissions l) := rfl
    rw [hfold, ih]
    by_cases ha : hasEmissions a
    · have hkey : emissionsKey a = 0 := by simp [emissionsKey, ha]
      rw [insertByKey_front a _ (fun y _ => by rw [hkey]; exact Nat.zero_le _)]
      simp [List.filter_cons, ha]
    · have hkey : emissionsKey a = 1 := by simp [emissionsKey, ha]
      rw [insertByKey_passes a _ _ (fun y hy => by
        have : hasEmissions y := by simpa using (List.mem_filter.mp hy).2
        simp [emissionsKey, this, ha])]
      rw [insertByKey_front a _ (fun y hy => by
        have : ¬ hasEmissions y := by simpa using (List.mem_filter.mp hy).2
        simp [emissionsKey, this, ha])]
      simp [List.filter_cons, ha]

/-- C5: the candidate list handed to the Extraction Service is the stable
partition of the fetched records — every candidate with the P5991 carbon
footprint claim before every candidate without it, original relative order
preserved inside both groups — and every candidate has its claims stripped. -/
theorem orderedResults_stable_partition_strips_claims (l : List Entity) :
    orderedResults l =
      (l.filter (fun e => hasEmissions e) ++ l.filter (fun e => !hasEmissions e)).map stripClaims ∧
    ∀ e ∈ orderedResults l, e.claims = none := by
  refine ⟨by rw [orderedResults, sortByEmissions_partition], ?_⟩
  intro e he
  rw [orderedResults] at he
  rcases List.mem_map.mp he with ⟨x, _, rfl⟩
  rfl

/-- Witness for C5: on a two-element list where only the second candidate
carries P5991, the output is the signalled candidate first, both stripped. -/
theorem orderedResults_stable_partition_strips_claims_witness :
    orderedResults
        [{ id := "Q1", descr := "a", claims := some [] },
         { id := "Q2", descr := "b", claims := some ["P5991"] }] =
      [{ id := "Q2", descr := "b", claims := none },
       { id := "Q1", descr := "a", claims := none }] ∧
    ({ id := "Q2", descr := "b", claims := none } : Entity).claims = none := by
  constructor
  · have h := (orderedResults_stable_partition_strips_claims
      [{ id := "Q1", descr := "a", claims := some [] },
       { id := "Q2", descr := "b", claims := some ["P5991"] }]).1
    rw [h]
    decide
  · exact (orderedResults_stable_partition_strips_claims
      [{ id := "Q1", descr := "a", claims := some [] },
       { id := "Q2", descr := "b", claims := some ["P5991"] }]).2
      { id := "Q2", descr := "b", claims := none } (by decide)

/-- allSettled produces one settled outcome per slot. -/
theorem settleSlots_length (o : UpsertCall → Except String Unit)
    (slots : List (Option UpsertCall)) :
    (settleSlots o slots).length = slots.length :=
  List.length_map slots (settleSlot o)

/-- The outcome recorded at a position is the settlement of that slot alone. -/
theorem settleSlots_get (o : UpsertCall → Except String Unit)
    (slots : List (Option UpsertCall)) (i : Nat) :
    (settleSlots o slots)[i]? = (slots[i]?).map (settleSlot o) :=
  List.getElem?_map (settleSlot o) slots i

/-- Two outcome assignments agreeing on the call in one slot settle that
slot identically, whatever they do to the other calls. -/
theorem settleSlots_congrAt (o₁ o₂ : UpsertCall → Except String Unit)
    (slots : List (Option UpsertCall)) (i : Nat)
    (h : ∀ c, slots[i]? = some (some c) → o₁ c = o₂ c) :
    (settleSlots o₁ slots)[i]? = (settleSlots o₂ slots)[i]? := by
  rw [settleSlots_get, settleSlots_get]
  cases hs : slots[i]? with
  | none => rfl
  | some slot =>
    cases slot with
    | none => rfl
    | some c => simp [settleSlot, h c hs]

/-- C6: in the reporting-periods handler and in the per-year emissions
handler, the field-group upserts are joined with allSettled semantics:
every slot of the fan-out array gets its own settled outcome (a skipped
guard settles as the literal `false`), the outcome at each position is a
function of that slot's own upsert result only, so the rejection of one
field-group upsert neither prevents a sibling from being attempted nor
alters the sibling's recorded outcome. -/
theorem fieldGroup_upserts_settled_independently (em : EmissionsVal) (ec : EconomyVal)
    (o o₁ o₂ : UpsertCall → Except String Unit) (i : Nat) :
    ((settleSlots o (periodSlots em ec)).length = (periodSlots em ec).length ∧
      (settleSlots o (periodSlots em ec))[i]? =
        ((periodSlots em ec)[i]?).map (settleSlot o) ∧
      ((∀ c, (periodSlots em ec)[i]? = some (some c) → o₁ c = o₂ c) →
        (settleSlots o₁ (periodSlots em ec))[i]? =
          (settleSlots o₂ (periodSlots em ec))[i]?)) ∧
    ((settleSlots o (emissionsRouteSlots em)).length = (emissionsRouteSlots em).length ∧
      (settleSlots o (emissionsRouteSlots em))[i]? =
        ((emissionsRouteSlots em)[i]?).map (settleSlot o) ∧
      ((∀ c, (emissionsRouteSlots em)[i]? = some (some c) → o₁ c = o₂ c) →
        (settleSlots o₁ (emissionsRouteSlots em))[i]? =
          (settleSlots o₂ (emissionsRouteSlots em))[i]?)) :=
  ⟨⟨settleSlots_length o _, settleSlots_get o _ i, settleSlots_congrAt o₁ o₂ _ i⟩,
   ⟨settleSlots_length o _, settleSlots_get o _ i, settleSlots_congrAt o₁ o₂ _ i⟩⟩

/-- Witness for C6: with the scope1 upsert rejected, the turnover slot of
the reporting-periods fan-out settles identically under the rejecting and
the accepting assignments, and the skipped statedTotalEmissions slot of
the per-year emissions fan-out also settles independently. -/
theorem fieldGroup_upserts_settled_independently_witness :
    (settleSlots c6Reject (periodSlots c6Emissions c6Economy))[6]? =
      (settleSlots c6Accept (periodSlots c6Emissions c6Economy))[6]? ∧
    (settleSlots c6Reject (emissionsRouteSlots c6Emissions))[4]? =
      (settleSlots c6Accept (emissionsRouteSlots c6Emissions))[4]? ∧
    (settleSlots c6Reject (periodSlots c6Emissions c6Economy)).length =
      (periodSlots c6Emissions c6Economy).length := by
  have h6 := fieldGroup_upserts_settled_independently c6Emissions c6Economy
    c6Reject c6Reject c6Accept 6
  have h4 := fieldGroup_upserts_settled_independently c6Emissions c6Economy
    c6Reject c6Reject c6Accept 4
  refine ⟨h6.1.2.2 ?_, h4.2.2.2 ?_, h6.1.1⟩
  · intro c hc
    have : c = UpsertCall.turnoverCall (some { value := some 5, currency := some "SEK" }) := by
      have hv : (periodSlots c6Emissions c6Economy)[6]? =
          some (some (UpsertCall.turnoverCall (some { value := some 5, currency := some "SEK" }))) :=
        by decide
      rw [hv] at hc
      exact Option.some.inj (Option.some.inj hc.symm)
    subst this
    rfl
  · intro c hc
    have hv : (emissionsRouteSlots c6Emissions)[4]? = some none := by decide
    rw [hv] at hc
    exact absurd (Option.some.inj hc) (by simp)

/-- A mapped option is never a `some` of a different constructor. -/
theorem some_ne_map_of_ctor_ne {α : Type} (f : α → UpsertCall) (c : UpsertCall)
    (o : Option α) (h : ∀ v, c ≠ f v) : ¬ some c = Option.map f o := by
  intro he
  rcases o with _ | v
  · exact Option.noConfusion he
  · exact h v (Option.some.inj he)

/-- C8: the schemas accept an explicit `null` for every nullable field group
(parsing it as `some none`, distinct from an omitted field's `none`), and
erased per-group dispatch in the reporting-periods handler: an omitted
group produces no upsert call for that group, while an explicit `null`
produces an upsert call for the group carrying `null`, meaning delete. -/
theorem nullable_group_null_deletes_omitted_skips (p : PeriodVal) (v1 : Option TotalObj)
    (v2 : Option Scope2Val) (vt : Option TurnoverVal) (ve : Option EmployeesVal) :
    (parseEmissionsObj (J.objV [("scope1", J.nullV), ("scope2", J.nullV), ("biogenic", J.nullV),
        ("statedTotalEmissions", J.nullV), ("scope1And2", J.nullV)]) =
      Except.ok { scope1 := some none, scope2 := some none, scope3 := none
                  biogenic := some none, statedTotalEmissions := some none
                  scope1And2 := some none } ∧
     parseEconomyObj (J.objV [("turnover", J.nullV), ("employees", J.nullV)]) =
      Except.ok { turnover := some none, employees := some none }) ∧
    (((p.emissions.getD emptyEmissions).scope1 = none →
        some (UpsertCall.scope1Call v1) ∉ (processPeriod p).slots) ∧
      ((p.emissions.getD emptyEmissions).scope1 = some none →
        some (UpsertCall.scope1Call none) ∈ (processPeriod p).slots)) ∧
    (((p.emissions.getD emptyEmissions).scope2 = none →
        some (UpsertCall.scope2Call v2) ∉ (processPeriod p).slots) ∧
      ((p.emissions.getD emptyEmissions).scope2 = some none →
        some (UpsertCall.scope2Call none) ∈ (processPeriod p).slots)) ∧
    (((p.emissions.getD emptyEmissions).biogenic = none →
        some (UpsertCall.biogenicCall v1) ∉ (processPeriod p).slots) ∧
      ((p.emissions.getD emptyEmissions).biogenic = some none →
        some (UpsertCall.biogenicCall none) ∈ (processPeriod p).slots)) ∧
    (((p.emissions.getD emptyEmissions).statedTotalEmissions = none →
        some (UpsertCall.statedTotalCall v1) ∉ (processPeriod p).slots) ∧
      ((p.emissions.getD emptyEmissions).statedTotalEmissions = some none →
        some (UpsertCall.statedTotalCall none) ∈ (processPeriod p).slots)) ∧
    (((p.emissions.getD emptyEmissions).scope1And2 = none →
        some (UpsertCall.scope1And2Call v1) ∉ (processPeriod p).slots) ∧
      ((p.emissions.getD emptyEmissions).scope1And2 = some none →
        some (UpsertCall.scope1And2Call none) ∈ (processPeriod p).slots)) ∧
    (((p.economy.getD emptyEconomy).turnover = none →
        some (UpsertCall.turnoverCall vt) ∉ (processPeriod p).slots) ∧
      ((p.economy.getD emptyEconomy).turnover = some none →
        some (UpsertCall.turnoverCall none) ∈ (processPeriod p).slots)) ∧
    (((p.economy.getD emptyEconomy).employees = none →
        some (UpsertCall.employeesCall ve) ∉ (processPeriod p).slots) ∧
      ((p.economy.getD emptyEconomy).employees = some none →
        some (UpsertCall.employeesCall none) ∈ (processPeriod p).slots)) := by
  refine ⟨⟨rfl, rfl⟩, ⟨?_, ?_⟩, ⟨?_, ?_⟩, ⟨?_, ?_⟩, ⟨?_, ?_⟩, ⟨?_, ?_⟩, ⟨?_, ?_⟩, ⟨?_, ?_⟩⟩ <;>
    intro h <;>
    first
      | (simp [processPeriod, periodSlots, normalizeTurnoverRP, h]; done)
      | (intro hmem
         simp only [processPeriod, periodSlots, List.mem_cons, List.not_mem_nil, or_false]
           at hmem
         rcases hmem with h0 | h0 | h0 | h0 | h0 | h0 | h0 | h0 <;>
           first
             | exact some_ne_map_of_ctor_ne _ _ _ (fun v hv => UpsertCall.noConfusion hv) h0
             | (rw [h] at h0; simp [normalizeTurnoverRP] at h0))

/-- Witness for C8: at `c8Period` the null scope1 and turnover trigger
delete upserts while the omitted scope2 produces no scope2 upsert. -/
theorem nullable_group_null_deletes_omitted_skips_witness :
    some (UpsertCall.scope1Call none) ∈ (processPeriod c8Period).slots ∧
    some (UpsertCall.scope2Call none) ∉ (processPeriod c8Period).slots ∧
    some (UpsertCall.turnoverCall none) ∈ (processPeriod c8Period).slots := by
  have h := nullable_group_null_deletes_omitted_skips c8Period none none none none
  exact ⟨h.2.1.2 rfl, h.2.2.1.1 rfl, h.2.2.2.2.2.2.1.2 rfl⟩

/-- Inversion of a successful Except bind. -/
theorem exceptBind_ok {α β : Type} {x : Except String α} {f : α → Except String β} {b : β}
    (h : (do let a ← x; f a) = Except.ok b) : ∃ a, x = Except.ok a ∧ f a = Except.ok b := by
  cases x with
  | error e => exact absurd h (by simp [Bind.bind, Except.bind])
  | ok a => exact ⟨a, rfl, by simpa [Bind.bind, Except.bind] using h⟩

/-- If the element-wise parser succeeds on a list, it succeeds on each
element. -/
theorem parseListJ_ok_elem {α : Type} {p : J → Except String α} :
    ∀ {xs : List J} {l : List α}, parseListJ p xs = Except.ok l →
      ∀ x ∈ xs, ∃ a, p x = Except.ok a := by
  intro xs
  induction xs with
  | nil => intro l _ x hx; cases hx
  | cons y ys ih =>
    intro l h x hx
    unfold parseListJ at h
    obtain ⟨a, ha, h2⟩ := exceptBind_ok h
    obtain ⟨as, has, _⟩ := exceptBind_ok h2
    rcases List.mem_cons.mp hx with rfl | hx2
    · exact ⟨a, ha⟩
    · exact ih has x hx2

/-- Every parsed element of a successful list parse comes from some input
element. -/
theorem parseListJ_ok_mem {α : Type} {p : J → Except String α} :
    ∀ {xs : List J} {l : List α}, parseListJ p xs = Except.ok l →
      ∀ a ∈ l, ∃ x ∈ xs, p x = Except.ok a := by
  intro xs
  induction xs with
  | nil =>
    intro l h a ha
    unfold parseListJ at h
    obtain rfl := Except.ok.inj h
    cases ha
  | cons y ys ih =>
    intro l h a ha
    unfold parseListJ at h
    obtain ⟨b, hb, h2⟩ := exceptBind_ok h
    obtain ⟨bs, hbs, h3⟩ := exceptBind_ok h2
    obtain rfl := Except.ok.inj h3
    rcases List.mem_cons.mp ha with rfl | ha2
    · exact ⟨y, List.mem_cons_self y ys, hb⟩
    · obtain ⟨x, hx, hpx⟩ := ih hbs a ha2
      exact ⟨x, List.mem_cons_of_mem y hx, hpx⟩

/-- A period that passes the schema refinement has its dates strictly
ordered. -/
theorem parsePeriod_ok_lt {j : J} {per : PeriodVal} (h : parsePeriod j = Except.ok per) :
    per.startDate < per.endDate := by
  unfold parsePeriod at h
  obtain ⟨fs, _, h⟩ := exceptBind_ok h
  obtain ⟨s, _, h⟩ := exceptBind_ok h
  obtain ⟨e, _, h⟩ := exceptBind_ok h
  obtain ⟨u, _, h⟩ := exceptBind_ok h
  obtain ⟨em, _, h⟩ := exceptBind_ok h
  obtain ⟨ec, _, h⟩ := exceptBind_ok h
  by_cases hlt : s < e
  · rw [if_pos hlt] at h
    obtain rfl := Except.ok.inj h
    exact hlt
  · rw [if_neg hlt] at h
    exact absurd h (by simp)

/-- A successfully parsed period carries exactly the submitted dates. -/
theorem parsePeriod_ok_dates {jfs : List (String × J)} {per : PeriodVal} {s e : Int}
    (hs : jLookup jfs "startDate" = some (J.numV s))
    (he : jLookup jfs "endDate" = some (J.numV e))
    (h : parsePeriod (J.objV jfs) = Except.ok per) :
    per.startDate = s ∧ per.endDate = e := by
  unfold parsePeriod at h
  obtain ⟨fs, hfs, h⟩ := exceptBind_ok h
  obtain rfl : jfs = fs := Except.ok.inj hfs
  obtain ⟨s2, hs2, h⟩ := exceptBind_ok h
  obtain ⟨e2, he2, h⟩ := exceptBind_ok h
  unfold reqField at hs2 he2
  rw [hs] at hs2
  rw [he] at he2
  obtain rfl : s = s2 := Except.ok.inj hs2
  obtain rfl : e = e2 := Except.ok.inj he2
  obtain ⟨u, _, h⟩ := exceptBind_ok h
  obtain ⟨em, _, h⟩ := exceptBind_ok h
  obtain ⟨ec, _, h⟩ := exceptBind_ok h
  by_cases hlt : s < e
  · rw [if_pos hlt] at h
    obtain rfl := Except.ok.inj h
    exact ⟨rfl, rfl⟩
  · rw [if_neg hlt] at h
    exact absurd h (by simp)

/-- C10: a POST of reporting periods is rejected by request validation —
before any upsert is issued — whenever some submitted period's startDate
is not strictly earlier than its endDate; every period that passes the
schema satisfies the bound, and so does every period reaching the upsert
stage. -/
theorem reportingPeriods_rejected_before_upserts (body : J) (bfs jfs : List (String × J))
    (ps : List J) (s e : Int) (per : PeriodVal) (run : PeriodRun) :
    (parsePeriod (J.objV jfs) = Except.ok per → per.startDate < per.endDate) ∧
    (body = J.objV bfs → jLookup bfs "reportingPeriods" = some (J.arrV ps) →
      J.objV jfs ∈ ps →
      jLookup jfs "startDate" = some (J.numV s) →
      jLookup jfs "endDate" = some (J.numV e) →
      ¬ s < e →
      (postReportingPeriodsRoute body).2 = [] ∧
      ∃ msg, (postReportingPeriodsRoute body).1 = ApiResponse.badRequest msg) ∧
    (run ∈ (postReportingPeriodsRoute body).2 → run.rpCall.startDate < run.rpCall.endDate) := by
  refine ⟨fun h => parsePeriod_ok_lt h, ?_, ?_⟩
  · intro hb hlook hmem hs he hlt
    subst hb
    rcases hparse : parsePostReportingPeriods (J.objV bfs) with msg | periods
    · exact ⟨by simp [postReportingPeriodsRoute, hparse], msg,
        by simp [postReportingPeriodsRoute, hparse]⟩
    · exfalso
      have hlist : parseListJ parsePeriod ps = Except.ok periods := by
        unfold parsePostReportingPeriods at hparse
        obtain ⟨fs2, hfs2, hrest⟩ := exceptBind_ok hparse
        obtain rfl : bfs = fs2 := Except.ok.inj hfs2
        rw [hlook] at hrest
        exact hrest
      obtain ⟨a, ha⟩ := parseListJ_ok_elem hlist (J.objV jfs) hmem
      obtain ⟨h1, h2⟩ := parsePeriod_ok_dates hs he ha
      exact hlt (h1 ▸ h2 ▸ parsePeriod_ok_lt ha)
  · intro hrun
    rcases hparse : parsePostReportingPeriods body with msg | periods
    · simp [postReportingPeriodsRoute, hparse] at hrun
    · simp only [postReportingPeriodsRoute, hparse] at hrun
      rcases List.mem_map.mp hrun with ⟨per2, hper2, rfl⟩
      have hexists : ∃ ps0, parseListJ parsePeriod ps0 = Except.ok periods := by
        unfold parsePostReportingPeriods at hparse
        obtain ⟨fs0, _, hrest⟩ := exceptBind_ok hparse
        cases hl : jLookup fs0 "reportingPeriods" with
        | none => rw [hl] at hrest; exact Except.noConfusion hrest
        | some w =>
          rw [hl] at hrest
          cases w with
          | arrV ps0 => exact ⟨ps0, hrest⟩
          | nullV => exact Except.noConfusion hrest
          | boolV b => exact Except.noConfusion hrest
          | numV n => exact Except.noConfusion hrest
          | strV t => exact Except.noConfusion hrest
          | objV o => exact Except.noConfusion hrest
      obtain ⟨ps0, hlist⟩ := hexists
      obtain ⟨x, _, hx⟩ := parseListJ_ok_mem hlist per2 hper2
      simpa [processPeriod] using parsePeriod_ok_lt hx

/-- Witness for C10: the inverted-dates body is rejected and produces no
upsert at all. -/
theorem reportingPeriods_rejected_before_upserts_witness :
    (postReportingPeriodsRoute c10Body).2 = [] ∧
    ∃ msg, (postReportingPeriodsRoute c10Body).1 = ApiResponse.badRequest msg :=
  (reportingPeriods_rejected_before_upserts c10Body
    [("reportingPeriods", J.arrV [J.objV [("startDate", J.numV 100), ("endDate", J.numV 50)]])]
    [("startDate", J.numV 100), ("endDate", J.numV 50)]
    [J.objV [("startDate", J.numV 100), ("endDate", J.numV 50)]]
    100 50
    { startDate := 0, endDate := 1, reportURL := none, emissions := none, economy := none }
    { rpCall := { startDate := 0, endDate := 1, reportURL := none, year := "1970" }
      slots := [] }).2.1
    rfl rfl (List.mem_singleton.mpr rfl) rfl rfl (by decide)

/-- In the suffix-trimming phase (every attempt after the first), the query
trace is a prefix of the iterated `dropLastWord` chain, its length is
bounded by the remaining budget, and if every performed search came back
empty so does the final result. -/
theorem searchLoopF_dropPhase (search : String → List SearchHit) :
    ∀ (fuel retry : Nat) (name : String), retry ≠ 0 →
      ((searchLoopF search fuel retry name).2.length ≤ fuel ∧
       (searchLoopF search fuel retry name).2 =
         List.take (searchLoopF search fuel retry name).2.length (iterDrop name fuel) ∧
       ((∀ q ∈ (searchLoopF search fuel retry name).2, search q = []) →
         (searchLoopF search fuel retry name).1 = [])) := by
  intro fuel
  induction fuel with
  | zero => intro retry name _; exact ⟨Nat.le_refl 0, rfl, fun _ => rfl⟩
  | succ n ih =>
    intro retry name hr
    by_cases hres : (search name).isEmpty
    · have hloop : searchLoopF search (n + 1) retry name =
          (if dropLastWord name = "" then (([] : List SearchHit), [name])
           else
             ((searchLoopF search n (retry + 1) (dropLastWord name)).1,
              name :: (searchLoopF search n (retry + 1) (dropLastWord name)).2)) := by
        simp [searchLoopF, hres, hr]
      by_cases hname : dropLastWord name = ""
      · rw [hloop, if_pos hname]
        refine ⟨by simp, by simp [iterDrop], fun _ => rfl⟩
      · rw [hloop, if_neg hname]
        obtain ⟨ih1, ih2, ih3⟩ := ih (retry + 1) (dropLastWord name) (Nat.succ_ne_zero retry)
        refine ⟨by simpa using Nat.succ_le_succ ih1, ?_, ?_⟩
        · simpa [iterDrop, List.take_succ_cons] using ih2
        · intro hall
          exact ih3 (fun q hq => hall q (List.mem_cons_of_mem name hq))
    · have hloop : searchLoopF search (n + 1) retry name = (search name, [name]) := by
        simp [searchLoopF, hres]
      rw [hloop]
      refine ⟨by simp, by simp [iterDrop], fun hall => ?_⟩
      have := hall name (List.mem_cons_self name [])
      simp at hres
      exact absurd this hres

/-- C3: for any company name the Entity Resolver performs at most 4 search
attempts; the trace of queries is a prefix of the chain
[original, stop-word-simplified, then progressive last-token trimming];
and if every attempted search returns no hits the resolver returns the
empty result list. -/
theorem entityResolver_bounded_retries (search : String → List SearchHit) (name : String) :
    ((getWikidataSearchResults search name).2).length ≤ 4 ∧
    (getWikidataSearchResults search name).2 =
      List.take ((getWikidataSearchResults search name).2).length
        [name, simplifyName name, dropLastWord (simplifyName name),
         dropLastWord (dropLastWord (simplifyName name))] ∧
    ((∀ q ∈ (getWikidataSearchResults search name).2, search q = []) →
      (getWikidataSearchResults search name).1 = []) := by
  by_cases hres : (search name).isEmpty
  · have hloop : getWikidataSearchResults search name =
        ((searchLoopF search 3 1 (simplifyName name)).1,
         name :: (searchLoopF search 3 1 (simplifyName name)).2) := by
      simp [getWikidataSearchResults, searchLoopF, hres]
    obtain ⟨h1, h2, h3⟩ := searchLoopF_dropPhase search 3 1 (simplifyName name) one_ne_zero
    rw [hloop]
    refine ⟨by simpa using Nat.succ_le_succ h1, ?_, ?_⟩
    · rw [show ([name, simplifyName name, dropLastWord (simplifyName name),
          dropLastWord (dropLastWord (simplifyName name))] : List String) =
          name :: iterDrop (simplifyName name) 3 from rfl]
      simp only [List.length_cons, List.take_succ_cons]
      exact congrArg (name :: ·) h2
    · intro hall
      exact h3 (fun q hq => hall q (List.mem_cons_of_mem name hq))
  · have hloop : getWikidataSearchResults search name = (search name, [name]) := by
      simp [getWikidataSearchResults, searchLoopF, hres]
    rw [hloop]
    refine ⟨by simp, by simp, fun hall => ?_⟩
    have := hall name (List.mem_cons_self name [])
    simp at hres
    exact absurd this hres

/-- Witness for C3: with a search collaborator that never finds anything,
resolving "Telia Group" stays within the 4-attempt budget and yields the
empty result list. -/
theorem entityResolver_bounded_retries_witness :
    ((getWikidataSearchResults (fun _ => []) "Telia Group").2).length ≤ 4 ∧
    (getWikidataSearchResults (fun _ => []) "Telia Group").1 = [] :=
  ⟨(entityResolver_bounded_retries (fun _ => []) "Telia Group").1,
   (entityResolver_bounded_retries (fun _ => []) "Telia Group").2.2 (fun _ _ => rfl)⟩
